import Mathlib

/-!
Verification of the Ridelink routing and dispatch engine.

This file gives a shallow embedding, in Lean 4, of the routing core of the
repository (the `RoutingService` in src/services/orderService.ts and the
route-tracking HTTP handler in src/api/routes.ts), and settles a list of
claims about it.

Modelling conventions:

* JavaScript numbers are modelled as rationals (ℚ).  The one place where a
  JavaScript arithmetic special value matters is the progress computation of
  the tracking handler, where `0 / 0` produces `NaN`; a computation that
  produces `NaN` is modelled as `Option.none`.
* The geodesic distance function `calculateDistance` (haversine formula over
  trigonometric functions) is real-valued and transcendental, so it cannot be
  an executable rational function.  Every routing operation is therefore
  parametrised by an abstract distance oracle
  `dist : RouteWaypoint → RouteWaypoint → ℚ` standing for
  `calculateDistance`; every claimed property of the routing code holds for
  an arbitrary oracle, and concrete witnesses instantiate it with an
  executable function.
* The Prisma record store is modelled as a partial map from route ids to
  persisted route records, threaded explicitly through the stateful
  operations.  `createError(message, statusCode)` becomes an `ApiError`
  value, and a TypeScript `try`/`catch` becomes a `match` on `Except`.
* `Math.random()` is modelled as an ambient stream `rng : ℕ → ℚ` of samples,
  passed to the service operations; only `getTrafficData` consumes it.
-/

namespace Ridelink

/-- Waypoint value from src/services/orderService.ts (`RouteWaypoint`):
latitude, longitude, and an optional address. -/
structure RouteWaypoint where
  latitude : ℚ
  longitude : ℚ
  address : Option String := none
deriving DecidableEq, Repr

/-- Route optimization request from src/services/orderService.ts
(`RouteOptimizationRequest`): origin, destination, optional waypoint list and
a vehicle type tag. -/
structure RouteOptimizationRequest where
  origin : RouteWaypoint
  destination : RouteWaypoint
  waypoints : Option (List RouteWaypoint) := none
  vehicleType : String
deriving DecidableEq, Repr

/-- Result of a route computation (`OptimizedRoute` in
src/services/orderService.ts). -/
structure OptimizedRoute where
  path : List RouteWaypoint
  totalDistance : ℚ
  estimatedDuration : ℚ
  estimatedFuelCost : ℚ
  estimatedTollCost : ℚ
  trafficConditions : String
  waypoints : List RouteWaypoint
deriving DecidableEq, Repr

/-- Route status enumeration from prisma/schema.prisma. -/
inductive RouteStatus where
  | PLANNED
  | IN_PROGRESS
  | COMPLETED
  | CANCELLED
deriving DecidableEq, Repr

/-- Persisted route record (model of the Prisma `Route` row, restricted to
the fields the routing service reads or writes). -/
structure PersistedRoute where
  id : String
  orderId : String
  transporterId : String
  optimizedPath : List RouteWaypoint
  estimatedDuration : ℚ
  distance : ℚ
  fuelCost : ℚ
  tollCost : ℚ
  status : RouteStatus
  actualDuration : Option ℚ := none
deriving DecidableEq, Repr

/-- Error value produced by `createError(message, statusCode)` in
src/middleware/errorHandler.ts. -/
structure ApiError where
  message : String
  statusCode : ℕ
deriving DecidableEq, Repr

/-- Per-segment traffic condition (`TrafficCondition` in
src/services/orderService.ts); `delay` is in minutes. -/
structure TrafficCondition where
  segStart : RouteWaypoint
  segEnd : RouteWaypoint
  condition : String
  delay : ℤ
deriving DecidableEq, Repr

/-- The Prisma route table, modelled as a partial map from route id to
record. -/
def Store : Type := String → Option PersistedRoute

/-- Overwrite of one record in the store (a `prisma.route.update` that
succeeds). -/
def updateStore (s : Store) (routeId : String) (r : PersistedRoute) : Store :=
  fun k => if k = routeId then some r else s k

/-- Fuel cost table of `RoutingService.calculateFuelCost`: per-km rate by
vehicle type, defaulting to 0.10 for an unknown type. -/
def calculateFuelCost (distance : ℚ) (vehicleType : String) : ℚ :=
  distance *
    (if vehicleType = "MOTORCYCLE" then 5 / 100
     else if vehicleType = "CAR" then 8 / 100
     else if vehicleType = "VAN" then 12 / 100
     else if vehicleType = "TRUCK_SMALL" then 15 / 100
     else if vehicleType = "TRUCK_MEDIUM" then 20 / 100
     else if vehicleType = "TRUCK_LARGE" then 25 / 100
     else 10 / 100)

/-- Total length of a polyline, as computed by the `reduce` inside
`RoutingService.estimateTollCost`: the accumulator starts at 0, index 0
contributes nothing, and index `i ≥ 1` adds the distance from point `i-1` to
point `i`; this is a left fold of the consecutive pairs of the path. -/
def pathDistance (dist : RouteWaypoint → RouteWaypoint → ℚ)
    (path : List RouteWaypoint) : ℚ :=
  (path.zip path.tail).foldl (fun total seg => total + dist seg.1 seg.2) 0

/-- Toll estimate of `RoutingService.estimateTollCost`: 0.02 per km once the
total path distance exceeds 50 km, otherwise 0. -/
def estimateTollCost (dist : RouteWaypoint → RouteWaypoint → ℚ)
    (path : List RouteWaypoint) : ℚ :=
  let distance := pathDistance dist path
  if distance > 50 then distance * (2 / 100) else 0

/-- Fallback route computation `RoutingService.getBasicRoute`: straight-line
distance origin→destination, average speed 50 km/h, path assembled as
`[origin, ...waypoints, destination]`. -/
def getBasicRoute (dist : RouteWaypoint → RouteWaypoint → ℚ)
    (request : RouteOptimizationRequest) : OptimizedRoute :=
  let distance := dist request.origin request.destination
  let duration := distance / 50 * 60
  { path := request.origin :: (request.waypoints.getD [] ++ [request.destination])
    totalDistance := distance
    estimatedDuration := duration
    estimatedFuelCost := 0
    estimatedTollCost := 0
    trafficConditions := "estimated"
    waypoints := request.waypoints.getD [] }

/-- Engine entry point `RoutingService.calculateOptimalRoute` in the
fallback configuration (no Google Maps key, no Mapbox token), where
`getExternalRoute` selects `getBasicRoute`; the route data is then decorated
with fuel and toll cost.  The `rng` argument is the ambient `Math.random`
stream available to the service; this code path never samples it. -/
def calculateOptimalRoute (dist : RouteWaypoint → RouteWaypoint → ℚ)
    (rng : ℕ → ℚ) (request : RouteOptimizationRequest) : OptimizedRoute :=
  let routeData := getBasicRoute dist request
  let fuelCost := calculateFuelCost routeData.totalDistance request.vehicleType
  let tollCost := estimateTollCost dist routeData.path
  { path := routeData.path
    totalDistance := routeData.totalDistance
    estimatedDuration := routeData.estimatedDuration
    estimatedFuelCost := fuelCost
    estimatedTollCost := tollCost
    trafficConditions := routeData.trafficConditions
    waypoints := routeData.waypoints }

/-- Scan of the inner loop shared by `RoutingService.solveTSP` and
`RoutingService.getRemainingWaypoints`: starting from a best candidate
`bestIdx` at distance `bestDist`, walk the remaining suffix `ws` (whose head
sits at absolute index `i`) and keep the first index realising a strictly
smaller distance from `current`. -/
def nnIdxAux (dist : RouteWaypoint → RouteWaypoint → ℚ) (current : RouteWaypoint) :
    ℕ → ℚ → ℕ → List RouteWaypoint → ℕ
  | bestIdx, _, _, [] => bestIdx
  | bestIdx, bestDist, i, w :: ws =>
    let d := dist current w
    if d < bestDist then nnIdxAux dist current i d (i + 1) ws
    else nnIdxAux dist current bestIdx bestDist (i + 1) ws

/-- Index of the first point of the list at minimum distance from `current`
(the `nearest`/`nearestIndex` loop of `solveTSP`, and likewise the
`closestIndex` loop of `getRemainingWaypoints`: best starts at index 0 and
is replaced only on a strictly smaller distance, so ties keep the earliest
index). -/
def nearestIdx (dist : RouteWaypoint → RouteWaypoint → ℚ) (current : RouteWaypoint) :
    List RouteWaypoint → ℕ
  | [] => 0
  | w :: ws => nnIdxAux dist current 0 (dist current w) 1 ws

theorem nnIdxAux_lt (dist : RouteWaypoint → RouteWaypoint → ℚ)
    (current : RouteWaypoint) :
    ∀ (ws : List RouteWaypoint) (bestIdx : ℕ) (bestDist : ℚ) (i : ℕ),
      bestIdx < i → nnIdxAux dist current bestIdx bestDist i ws < i + ws.length := by
  intro ws
  induction ws with
  | nil => intro bestIdx bestDist i h; simpa [nnIdxAux] using h
  | cons w ws ih =>
    intro bestIdx bestDist i h
    by_cases hd : dist current w < bestDist
    · have := ih i (dist current w) (i + 1) (Nat.lt_succ_self i)
      simpa [nnIdxAux, hd, Nat.add_comm, Nat.add_left_comm] using this
    · have := ih bestIdx bestDist (i + 1) (Nat.lt_succ_of_lt h)
      simpa [nnIdxAux, hd, Nat.add_comm, Nat.add_left_comm] using this

theorem nearestIdx_lt (dist : RouteWaypoint → RouteWaypoint → ℚ)
    (current p : RouteWaypoint) (ps : List RouteWaypoint) :
    nearestIdx dist current (p :: ps) < (p :: ps).length := by
  have := nnIdxAux_lt dist current ps 0 (dist current p) 1 Nat.one_pos
  simpa [nearestIdx, Nat.add_comm] using this

theorem eraseIdx_nearestIdx_length_lt (dist : RouteWaypoint → RouteWaypoint → ℚ)
    (current p : RouteWaypoint) (ps : List RouteWaypoint) :
    ((p :: ps).eraseIdx (nearestIdx dist current (p :: ps))).length <
      (p :: ps).length := by
  have h1 := nearestIdx_lt dist current p ps
  have h2 := List.length_eraseIdx_add_one h1
  omega

/-- Nearest-neighbour tour construction `RoutingService.solveTSP`: while
unvisited stops remain, pick the first one at minimum distance from the
current position, append it, remove it (`splice`) and advance the current
position to it. -/
def solveTSP (dist : RouteWaypoint → RouteWaypoint → ℚ) (current : RouteWaypoint)
    (points : List RouteWaypoint) : List RouteWaypoint :=
  match points with
  | [] => []
  | p :: ps =>
    let idx := nearestIdx dist current (p :: ps)
    let nearest := (p :: ps).getD idx p
    nearest :: solveTSP dist nearest ((p :: ps).eraseIdx idx)
termination_by points.length
decreasing_by
  exact eraseIdx_nearestIdx_length_lt dist current _ _

/-- Tail of the planned path strictly after the point closest to the current
location (`RoutingService.getRemainingWaypoints`: first index at minimum
distance, then `slice(closestIndex + 1)`). -/
def getRemainingWaypoints (dist : RouteWaypoint → RouteWaypoint → ℚ)
    (originalPath : List RouteWaypoint) (currentLocation : RouteWaypoint) :
    List RouteWaypoint :=
  originalPath.drop (nearestIdx dist currentLocation originalPath + 1)

/-- Route lookup `RoutingService.getRouteById`: a missing record raises the
404 error, which that method's own catch re-throws unchanged. -/
def getRouteById (s : Store) (routeId : String) : Except ApiError PersistedRoute :=
  match s routeId with
  | none => Except.error ⟨"Route not found", 404⟩
  | some r => Except.ok r

/-- Status update `RoutingService.updateRouteStatus`.  The method validates
nothing: it unconditionally writes the requested status.  The guard
`if (actualDuration)` is a JavaScript truthiness test, so a provided value
of 0 is treated like an absent one and the stored field keeps its previous
value.  A missing record makes `prisma.route.update` throw, and the catch
converts any error to the generic 500.  Returns the call's result together
with the resulting store. -/
def updateRouteStatus (s : Store) (routeId : String) (status : RouteStatus)
    (actualDuration : Option ℚ) : Except ApiError PersistedRoute × Store :=
  match s routeId with
  | none => (Except.error ⟨"Failed to update route status", 500⟩, s)
  | some r =>
    let newDuration :=
      match actualDuration with
      | some d => if d = 0 then r.actualDuration else some d
      | none => r.actualDuration
    let r' := { r with status := status, actualDuration := newDuration }
    (Except.ok r', updateStore s routeId r')

/-- Body of the `try` block of `RoutingService.recalculateRoute`: load the
route, keep the path points strictly after the one closest to the current
location, fail with the 400 error if none remain, otherwise recompute the
route (fallback configuration) with the last remaining point as destination
and overwrite the persisted record.  `vehicleType` stands for the joined
`route.transporter.vehicleType`. -/
def recalculateRouteTry (dist : RouteWaypoint → RouteWaypoint → ℚ) (rng : ℕ → ℚ)
    (s : Store) (vehicleType : String) (routeId : String)
    (currentLocation : RouteWaypoint) : Except ApiError (OptimizedRoute × Store) :=
  match getRouteById s routeId with
  | Except.error e => Except.error e
  | Except.ok route =>
    match getRemainingWaypoints dist route.optimizedPath currentLocation with
    | [] => Except.error ⟨"Route already completed", 400⟩
    | w :: ws =>
      let request : RouteOptimizationRequest :=
        { origin := currentLocation
          destination := (w :: ws).getLast (List.cons_ne_nil w ws)
          waypoints := some (w :: ws).dropLast
          vehicleType := vehicleType }
      let newRoute := calculateOptimalRoute dist rng request
      let r' := { route with
                    optimizedPath := newRoute.path
                    estimatedDuration := newRoute.estimatedDuration
                    distance := newRoute.totalDistance
                    fuelCost := newRoute.estimatedFuelCost
                    tollCost := newRoute.estimatedTollCost }
      Except.ok (newRoute, updateStore s routeId r')

/-- Full `RoutingService.recalculateRoute`: its catch block replaces every
error raised inside the `try` — including the distinct
"Route already completed" condition — by the generic
"Failed to recalculate route" 500 error.  On failure the store is returned
unmodified (nothing was written). -/
def recalculateRoute (dist : RouteWaypoint → RouteWaypoint → ℚ) (rng : ℕ → ℚ)
    (s : Store) (vehicleType : String) (routeId : String)
    (currentLocation : RouteWaypoint) : Except ApiError OptimizedRoute × Store :=
  match recalculateRouteTry dist rng s vehicleType routeId currentLocation with
  | Except.ok (newRoute, s') => (Except.ok newRoute, s')
  | Except.error _ => (Except.error ⟨"Failed to recalculate route", 500⟩, s)

/-- One step of a Google Maps directions leg, reduced to the fields the
parser reads (`step.start_location.lat` / `.lng`). -/
structure GoogleStep where
  startLat : ℚ
  startLng : ℚ
deriving DecidableEq, Repr

/-- One leg of a Google Maps directions route, reduced to the fields the
service reads: the steps, and the per-leg distance (meters) and duration
(seconds) values. -/
structure GoogleLeg where
  steps : List GoogleStep
  distanceValue : ℚ
  durationValue : ℚ
deriving DecidableEq, Repr

/-- First route of a Google Maps directions response, as consumed by
`RoutingService.getGoogleMapsRoute`; `firstLegHasTraffic` models whether
`route.legs[0]?.duration_in_traffic` is present. -/
structure GoogleRouteResponse where
  legs : List GoogleLeg
  firstLegHasTraffic : Bool
deriving DecidableEq, Repr

/-- Path parser `RoutingService.parseGoogleMapsPath`: for each leg, push the
start location of each step.  Note that no step's end location — in
particular the route's final destination — is ever pushed. -/
def parseGoogleMapsPath (legs : List GoogleLeg) : List RouteWaypoint :=
  legs.foldl
    (fun path leg =>
      path ++ leg.steps.map
        (fun step => { latitude := step.startLat, longitude := step.startLng }))
    []

/-- Provider variant `RoutingService.getGoogleMapsRoute`, applied to an
already-received response (the network call itself is outside the model):
parse the legs into a path, sum leg distances (meters→km) and durations
(seconds→minutes), leave the costs at 0. -/
def getGoogleMapsRoute (request : RouteOptimizationRequest)
    (route : GoogleRouteResponse) : OptimizedRoute :=
  { path := parseGoogleMapsPath route.legs
    totalDistance :=
      (route.legs.foldl (fun sum leg => sum + leg.distanceValue) 0) / 1000
    estimatedDuration :=
      (route.legs.foldl (fun sum leg => sum + leg.durationValue) 0) / 60
    estimatedFuelCost := 0
    estimatedTollCost := 0
    trafficConditions := if route.firstLegHasTraffic then "real-time" else "estimated"
    waypoints := request.waypoints.getD [] }

/-- Path parser `RoutingService.parseMapboxPath`: each GeoJSON coordinate
pair `(lng, lat)` becomes a waypoint with the components swapped. -/
def parseMapboxPath (coordinates : List (ℚ × ℚ)) : List RouteWaypoint :=
  coordinates.map (fun coord => { latitude := coord.2, longitude := coord.1 })

/-- Synthetic traffic generator `RoutingService.getTrafficData`: one
condition per consecutive segment; each segment draws one sample for the
condition, one for whether there is a delay, and (only when delayed) one for
the delay magnitude, from the ambient `Math.random` stream `rng` whose next
unread position is `k`. -/
def getTrafficData (rng : ℕ → ℚ) : ℕ → List RouteWaypoint → List TrafficCondition
  | _, [] => []
  | _, [_] => []
  | k, a :: b :: rest =>
    let condition := if rng k > 7 / 10 then "heavy" else "light"
    if rng (k + 1) > 7 / 10 then
      { segStart := a, segEnd := b, condition := condition,
        delay := ⌊rng (k + 2) * 15⌋ } :: getTrafficData rng (k + 3) (b :: rest)
    else
      { segStart := a, segEnd := b, condition := condition,
        delay := 0 } :: getTrafficData rng (k + 2) (b :: rest)

/-- Spread minimum `Math.min(d, ...ds)` over a nonempty list of numbers. -/
def jsMin (d : ℚ) (ds : List ℚ) : ℚ := ds.foldl min d

/-- Array.prototype.indexOf: index of the first occurrence of `x`.  JavaScript
returns -1 when `x` is absent; this model returns the list's length in that
case, which never arises at the call site (the searched value is always the
minimum of the list itself). -/
def jsIndexOf (x : ℚ) : List ℚ → ℕ
  | [] => 0
  | d :: ds => if d = x then 0 else jsIndexOf x ds + 1

/-- Closest-point selection of the tracking handler in src/api/routes.ts:
`distances.indexOf(Math.min(...distances))`, i.e. the lowest index of a path
point at minimum distance from the current location.  (The handler inlines
its own copy of the haversine formula, identical to the service's
`calculateDistance`; both are represented by the same oracle `dist`.) -/
def closestPointIndex (dist : RouteWaypoint → RouteWaypoint → ℚ)
    (currentLocation : RouteWaypoint) (routePath : List RouteWaypoint) : ℕ :=
  match routePath with
  | [] => 0
  | p :: ps =>
    jsIndexOf
      (jsMin (dist currentLocation p) (ps.map (fun point => dist currentLocation point)))
      ((p :: ps).map (fun point => dist currentLocation point))

/-- Progress computation of the `GET /:id/tracking` handler in
src/api/routes.ts, given a tracked current location.  `progress` starts at 0
and is recomputed only for a nonempty path as
`Math.round((closestPointIndex / (routePath.length - 1)) * 100)`.  For a
one-point path this divides 0 by 0, which is `NaN` in JavaScript arithmetic
(and `Math.round(NaN)` is `NaN`); a `NaN` result is modelled as `none`.
Mathlib's `round` is `⌊x + 1/2⌋`, which agrees with `Math.round` on every
rational. -/
def trackingProgress (dist : RouteWaypoint → RouteWaypoint → ℚ)
    (currentLocation : RouteWaypoint) (routePath : List RouteWaypoint) :
    Option ℤ :=
  match routePath with
  | [] => some 0
  | p :: ps =>
    if ps = [] then none
    else
      some (round ((closestPointIndex dist currentLocation (p :: ps) : ℚ) /
        (((p :: ps).length : ℚ) - 1) * 100))

/-- Remaining-time field of the tracking handler's response:
`route.estimatedDuration * (1 - progress / 100)`; a `NaN` progress makes the
product `NaN` as well. -/
def estimatedTimeRemaining (estimatedDuration : ℚ) : Option ℤ → Option ℚ
  | none => none
  | some progress => some (estimatedDuration * (1 - (progress : ℚ) / 100))

/-- Executable distance oracle used by the concrete witnesses: the taxicab
distance on coordinates.  (The claims hold for every oracle; this one only
serves to evaluate the operations on concrete inputs.) -/
def taxiDist (a b : RouteWaypoint) : ℚ :=
  |a.latitude - b.latitude| + |a.longitude - b.longitude|

/-- Specification-side formulation of the toll total, following the spec's
words: the sum of the distances between consecutive points of the path.  It
is compared with the implementation-side `pathDistance` (a fold over zipped
pairs) in the toll claim. -/
def consecutiveDistanceSum (dist : RouteWaypoint → RouteWaypoint → ℚ) :
    List RouteWaypoint → ℚ
  | a :: b :: rest => dist a b + consecutiveDistanceSum dist (b :: rest)
  | _ => 0

theorem pathDistance_foldl_init (dist : RouteWaypoint → RouteWaypoint → ℚ) :
    ∀ (path : List RouteWaypoint) (init : ℚ),
      (path.zip path.tail).foldl (fun total seg => total + dist seg.1 seg.2) init =
        init + consecutiveDistanceSum dist path := by
  intro path
  induction path with
  | nil => intro init; simp [consecutiveDistanceSum]
  | cons a rest ih =>
    intro init
    cases rest with
    | nil => simp [consecutiveDistanceSum]
    | cons b rest' =>
      have h := ih (init + dist a b)
      simp only [List.zip_cons_cons, List.tail_cons, List.foldl_cons] at h ⊢
      rw [h, consecutiveDistanceSum]
      ring

theorem pathDistance_eq_consecutiveDistanceSum
    (dist : RouteWaypoint → RouteWaypoint → ℚ) (path : List RouteWaypoint) :
    pathDistance dist path = consecutiveDistanceSum dist path := by
  have h := pathDistance_foldl_init dist path 0
  simpa [pathDistance] using h

theorem jsMin_le_init (d : ℚ) (ds : List ℚ) : jsMin d ds ≤ d := by
  induction ds generalizing d with
  | nil => simp [jsMin]
  | cons e ds ih =>
    have h := ih (min d e)
    calc jsMin d (e :: ds) = jsMin (min d e) ds := by simp [jsMin]
    _ ≤ min d e := h
    _ ≤ d := min_le_left d e

theorem jsMin_le_mem (ds : List ℚ) : ∀ (d x : ℚ), x ∈ ds → jsMin d ds ≤ x := by
  induction ds with
  | nil => intro d x hx; cases hx
  | cons e ds ih =>
    intro d x hx
    have hrw : jsMin d (e :: ds) = jsMin (min d e) ds := by simp [jsMin]
    rcases List.mem_cons.mp hx with h | h
    · subst h
      calc jsMin d (x :: ds) = jsMin (min d x) ds := by simp [jsMin]
      _ ≤ min d x := jsMin_le_init _ _
      _ ≤ x := min_le_right d x
    · rw [hrw]; exact ih (min d e) x h

theorem jsMin_mem (ds : List ℚ) : ∀ d : ℚ, jsMin d ds ∈ d :: ds := by
  induction ds with
  | nil => intro d; simp [jsMin]
  | cons e ds ih =>
    intro d
    have hrw : jsMin d (e :: ds) = jsMin (min d e) ds := by simp [jsMin]
    rw [hrw]
    have h := ih (min d e)
    rcases List.mem_cons.mp h with h1 | h1
    · rcases min_choice d e with h2 | h2
    -- the minimum used as the fold seed is itself one of the two heads
      · rw [h1, h2]; exact List.mem_cons_self d (e :: ds)
      · rw [h1, h2]
        exact List.mem_cons_of_mem d (List.mem_cons_self e ds)
    · exact List.mem_cons_of_mem d (List.mem_cons_of_mem e h1)

theorem jsIndexOf_lt_length (x : ℚ) :
    ∀ l : List ℚ, x ∈ l → jsIndexOf x l < l.length := by
  intro l
  induction l with
  | nil => intro h; cases h
  | cons d ds ih =>
    intro h
    by_cases hd : d = x
    · simp [jsIndexOf, hd]
    · rcases List.mem_cons.mp h with h1 | h1
      · exact absurd h1.symm hd
      · have := ih h1
        simp only [jsIndexOf, hd, if_false, List.length_cons]
        omega

theorem jsIndexOf_getD (x : ℚ) :
    ∀ (l : List ℚ) (y : ℚ), x ∈ l → l.getD (jsIndexOf x l) y = x := by
  intro l
  induction l with
  | nil => intro y h; cases h
  | cons d ds ih =>
    intro y h
    by_cases hd : d = x
    · simp [jsIndexOf, hd]
    · rcases List.mem_cons.mp h with h1 | h1
      · exact absurd h1.symm hd
      · simp only [jsIndexOf, hd, if_false, List.getD_cons_succ]
        exact ih y h1

theorem jsIndexOf_earlier_ne (x : ℚ) :
    ∀ (l : List ℚ) (y : ℚ) (j : ℕ), j < jsIndexOf x l → l.getD j y ≠ x := by
  intro l
  induction l with
  | nil => intro y j h; simp [jsIndexOf] at h
  | cons d ds ih =>
    intro y j h
    by_cases hd : d = x
    · simp [jsIndexOf, hd] at h
    · cases j with
      | zero => simpa using hd
      | succ j =>
        simp only [jsIndexOf, hd, if_false] at h
        simp only [List.getD_cons_succ]
        exact ih y j (by omega)

theorem nnIdxAux_spec (dist : RouteWaypoint → RouteWaypoint → ℚ)
    (cur d₀ : RouteWaypoint) (l : List RouteWaypoint) :
    ∀ (ws : List RouteWaypoint) (i bestIdx : ℕ) (bestDist : ℚ),
      ws = l.drop i → bestIdx < i → bestIdx < l.length →
      bestDist = dist cur (l.getD bestIdx d₀) →
      (∀ j, j < i → bestDist ≤ dist cur (l.getD j d₀)) →
      (∀ j, j < bestIdx → bestDist < dist cur (l.getD j d₀)) →
      nnIdxAux dist cur bestIdx bestDist i ws < l.length ∧
      (∀ j, j < l.length →
        dist cur (l.getD (nnIdxAux dist cur bestIdx bestDist i ws) d₀) ≤
          dist cur (l.getD j d₀)) ∧
      (∀ j, j < nnIdxAux dist cur bestIdx bestDist i ws →
        dist cur (l.getD (nnIdxAux dist cur bestIdx bestDist i ws) d₀) <
          dist cur (l.getD j d₀)) := by
  intro ws
  induction ws with
  | nil =>
    intro i bestIdx bestDist hws hbi hbl hbd hmono hstrict
    have hlen : l.length ≤ i := List.drop_eq_nil_iff.mp hws.symm
    refine ⟨by simpa [nnIdxAux] using hbl, ?_, ?_⟩
    · intro j hj
      have h1 := hmono j (lt_of_lt_of_le hj hlen)
      simp only [nnIdxAux]
      rw [← hbd]
      exact h1
    · intro j hj
      simp only [nnIdxAux] at hj ⊢
      have h1 := hstrict j hj
      rw [← hbd]
      exact h1
  | cons w ws' ih =>
    intro i bestIdx bestDist hws hbi hbl hbd hmono hstrict
    have hil : i < l.length := by
      by_contra hle
      have : l.drop i = [] := List.drop_eq_nil_of_le (by omega)
      rw [← hws] at this
      exact List.cons_ne_nil w ws' this
    have hsplit : l[i] :: l.drop (i + 1) = w :: ws' := by
      rw [List.getElem_cons_drop l i hil, ← hws]
    have hw : w = l[i] := (List.cons.injEq _ _ _ _ ▸ hsplit).1.symm
    have hws' : ws' = l.drop (i + 1) := ((List.cons.injEq _ _ _ _).mp hsplit).2.symm
    have hwD : w = l.getD i d₀ := by rw [hw, List.getD_eq_getElem l d₀ hil]
    by_cases hd : dist cur w < bestDist
    · have hres : nnIdxAux dist cur bestIdx bestDist i (w :: ws') =
          nnIdxAux dist cur i (dist cur w) (i + 1) ws' := by
        simp [nnIdxAux, hd]
      rw [hres]
      apply ih (i + 1) i (dist cur w) hws' (Nat.lt_succ_self i) hil
        (by rw [hwD])
      · intro j hj
        rcases Nat.lt_succ_iff_lt_or_eq.mp hj with h1 | h1
        · exact le_of_lt (lt_of_lt_of_le hd (hmono j h1))
        · subst h1; rw [hwD]
      · intro j hj
        exact lt_of_lt_of_le hd (hmono j hj)
    · have hres : nnIdxAux dist cur bestIdx bestDist i (w :: ws') =
          nnIdxAux dist cur bestIdx bestDist (i + 1) ws' := by
        simp [nnIdxAux, hd]
      rw [hres]
      apply ih (i + 1) bestIdx bestDist hws' (Nat.lt_succ_of_lt hbi) hbl hbd
      · intro j hj
        rcases Nat.lt_succ_iff_lt_or_eq.mp hj with h1 | h1
        · exact hmono j h1
        · subst h1; rw [← hwD]; exact le_of_not_lt hd
      · exact hstrict

theorem nearestIdx_spec (dist : RouteWaypoint → RouteWaypoint → ℚ)
    (cur d₀ p : RouteWaypoint) (ps : List RouteWaypoint) :
    nearestIdx dist cur (p :: ps) < (p :: ps).length ∧
    (∀ j, j < (p :: ps).length →
      dist cur ((p :: ps).getD (nearestIdx dist cur (p :: ps)) d₀) ≤
        dist cur ((p :: ps).getD j d₀)) ∧
    (∀ j, j < nearestIdx dist cur (p :: ps) →
      dist cur ((p :: ps).getD (nearestIdx dist cur (p :: ps)) d₀) <
        dist cur ((p :: ps).getD j d₀)) := by
  have h := nnIdxAux_spec dist cur d₀ (p :: ps) ps 1 0 (dist cur p)
    (by simp) Nat.one_pos (by simp) (by simp)
    (by intro j hj; interval_cases j; simp)
    (by intro j hj; omega)
  simpa [nearestIdx] using h

theorem getD_cons_eraseIdx_perm (l : List RouteWaypoint) (i : ℕ)
    (d : RouteWaypoint) (h : i < l.length) :
    List.Perm (l.getD i d :: l.eraseIdx i) l := by
  have h1 : l.getD i d = l[i] := List.getD_eq_getElem l d h
  have h2 := List.perm_cons_erase (List.getElem_mem h)
  have h3 := List.erase_getElem h
  rw [h1]
  exact (List.Perm.cons l[i] h3.symm).trans h2.symm

theorem solveTSP_cons (dist : RouteWaypoint → RouteWaypoint → ℚ)
    (current p : RouteWaypoint) (ps : List RouteWaypoint) :
    solveTSP dist current (p :: ps) =
      (p :: ps).getD (nearestIdx dist current (p :: ps)) p ::
        solveTSP dist ((p :: ps).getD (nearestIdx dist current (p :: ps)) p)
          ((p :: ps).eraseIdx (nearestIdx dist current (p :: ps))) := by
  rw [solveTSP]

theorem solveTSP_perm_aux (dist : RouteWaypoint → RouteWaypoint → ℚ) :
    ∀ (n : ℕ) (points : List RouteWaypoint) (current : RouteWaypoint),
      points.length ≤ n → List.Perm (solveTSP dist current points) points := by
  intro n
  induction n with
  | zero =>
    intro points current hlen
    have : points = [] := List.length_eq_zero.mp (Nat.le_zero.mp hlen)
    subst this
    rw [solveTSP]
  | succ n ih =>
    intro points current hlen
    cases points with
    | nil => rw [solveTSP]
    | cons p ps =>
      rw [solveTSP_cons]
      have hidx := nearestIdx_lt dist current p ps
      have hperm := getD_cons_eraseIdx_perm (p :: ps) (nearestIdx dist current (p :: ps)) p hidx
      have hlen' : ((p :: ps).eraseIdx (nearestIdx dist current (p :: ps))).length ≤ n := by
        have := List.length_eraseIdx_add_one hidx
        simp only [List.length_cons] at hlen this
        omega
      exact (List.Perm.cons _ (ih _ _ hlen')).trans hperm

theorem jsMin_le_all (d : ℚ) (ds : List ℚ) : ∀ x ∈ d :: ds, jsMin d ds ≤ x := by
  intro x hx
  rcases List.mem_cons.mp hx with h | h
  · rw [h]; exact jsMin_le_init d ds
  · exact jsMin_le_mem ds d x h

theorem closestPointIndex_spec (dist : RouteWaypoint → RouteWaypoint → ℚ)
    (cur d₀ p : RouteWaypoint) (ps : List RouteWaypoint) :
    closestPointIndex dist cur (p :: ps) < (p :: ps).length ∧
    (∀ j, j < (p :: ps).length →
      dist cur ((p :: ps).getD (closestPointIndex dist cur (p :: ps)) d₀) ≤
        dist cur ((p :: ps).getD j d₀)) ∧
    (∀ j, j < closestPointIndex dist cur (p :: ps) →
      dist cur ((p :: ps).getD (closestPointIndex dist cur (p :: ps)) d₀) <
        dist cur ((p :: ps).getD j d₀)) := by
  set f : RouteWaypoint → ℚ := fun point => dist cur point with hf
  set distances : List ℚ := (p :: ps).map f with hds
  set m : ℚ := jsMin (f p) (ps.map f) with hm
  have hdcons : distances = f p :: ps.map f := by simp [hds]
  have hmem : m ∈ distances := by
    have := jsMin_mem (ps.map f) (f p)
    rw [hdcons]
    simpa [hm] using this
  have hcp : closestPointIndex dist cur (p :: ps) = jsIndexOf m distances := by
    simp [closestPointIndex, hds, hm, hf]
  have hlen : jsIndexOf m distances < distances.length := jsIndexOf_lt_length m distances hmem
  have hlen' : distances.length = (p :: ps).length := by simp [hds]
  have hgetD : ∀ j, distances.getD j (f d₀) = dist cur ((p :: ps).getD j d₀) := by
    intro j
    rw [hds, List.getD_map (p :: ps) d₀ f, hf]
  have hmin_le : ∀ j, j < (p :: ps).length → m ≤ dist cur ((p :: ps).getD j d₀) := by
    intro j hj
    rw [← hgetD j]
    apply jsMin_le_all (f p) (ps.map f)
    rw [← hdcons]
    have hj' : j < distances.length := by omega
    rw [List.getD_eq_getElem distances (f d₀) hj']
    exact List.getElem_mem hj'
  have hat : dist cur ((p :: ps).getD (closestPointIndex dist cur (p :: ps)) d₀) = m := by
    rw [hcp, ← hgetD]
    exact jsIndexOf_getD m distances (f d₀) hmem
  refine ⟨by omega, ?_, ?_⟩
  · intro j hj
    rw [hat]
    exact hmin_le j hj
  · intro j hj
    rw [hcp] at hj
    have hne : distances.getD j (f d₀) ≠ m := jsIndexOf_earlier_ne m distances (f d₀) j hj
    rw [hgetD j] at hne
    have hjlt : j < (p :: ps).length := by omega
    have := hmin_le j hjlt
    rw [hat]
    exact lt_of_le_of_ne this (fun h => hne h.symm)

/-- Shorthand for a waypoint with no address, used by concrete witnesses. -/
def wp (la lo : ℚ) : RouteWaypoint := { latitude := la, longitude := lo }

/-- Concrete completed route used to exercise the status update on a
terminal status. -/
def sampleRouteCompleted : PersistedRoute :=
  { id := "route-1", orderId := "order-1", transporterId := "tr-1",
    optimizedPath := [wp 0 0, wp 0 1], estimatedDuration := 60, distance := 50,
    fuelCost := 4, tollCost := 0, status := RouteStatus.COMPLETED,
    actualDuration := none }

/-- Concrete planned route with no recorded actual duration. -/
def samplePlannedRoute : PersistedRoute :=
  { id := "route-2", orderId := "order-2", transporterId := "tr-2",
    optimizedPath := [wp 0 0, wp 0 1], estimatedDuration := 60, distance := 50,
    fuelCost := 4, tollCost := 0, status := RouteStatus.PLANNED,
    actualDuration := none }

/-- Store holding exactly one route record, under its own id. -/
def storeOf (r : PersistedRoute) : Store :=
  fun k => if k = r.id then some r else none

/-- Concrete route request used by the provider-parse counterexample. -/
def sampleRequest : RouteOptimizationRequest :=
  { origin := wp 0 0, destination := wp 0 1, waypoints := none,
    vehicleType := "CAR" }

/-- Concrete Google Maps directions response: a single leg with a single
step starting at the request's origin. -/
def sampleGoogleResponse : GoogleRouteResponse :=
  { legs := [{ steps := [{ startLat := 0, startLng := 0 }],
               distanceValue := 111000, durationValue := 8000 }],
    firstLegHasTraffic := false }

/-- C4: for every request, the fallback (no-provider) route computation
returns the path `[origin, ...waypoints, destination]` with no reordering,
a total distance equal to the origin→destination distance only (independent
of the waypoints present), and an estimated duration of
`(totalDistance / 50) * 60` minutes. -/
theorem C4_getBasicRoute_shape (dist : RouteWaypoint → RouteWaypoint → ℚ)
    (request : RouteOptimizationRequest) :
    (getBasicRoute dist request).path =
      request.origin :: (request.waypoints.getD [] ++ [request.destination]) ∧
    (getBasicRoute dist request).totalDistance =
      dist request.origin request.destination ∧
    (∀ ws, (getBasicRoute dist { request with waypoints := ws }).totalDistance =
      (getBasicRoute dist request).totalDistance) ∧
    (getBasicRoute dist request).estimatedDuration =
      (getBasicRoute dist request).totalDistance / 50 * 60 :=
  ⟨rfl, rfl, fun _ => rfl, rfl⟩

/-- C5: the toll estimator sums the distances between consecutive points of
the path and returns 0 when the total is at most 50 km, and
`total * 0.02` otherwise; a total of 49 km yields 0 and a total of 51 km
yields 1.02. -/
theorem C5_estimateTollCost_threshold (dist : RouteWaypoint → RouteWaypoint → ℚ)
    (path : List RouteWaypoint) :
    estimateTollCost dist path =
      (if consecutiveDistanceSum dist path ≤ 50 then 0
       else consecutiveDistanceSum dist path * (2 / 100)) ∧
    (consecutiveDistanceSum dist path = 49 → estimateTollCost dist path = 0) ∧
    (consecutiveDistanceSum dist path = 51 →
      estimateTollCost dist path = 102 / 100) := by
  have hpd := pathDistance_eq_consecutiveDistanceSum dist path
  have hmain : estimateTollCost dist path =
      (if consecutiveDistanceSum dist path ≤ 50 then 0
       else consecutiveDistanceSum dist path * (2 / 100)) := by
    simp only [estimateTollCost, hpd]
    by_cases h : consecutiveDistanceSum dist path ≤ 50
    · rw [if_neg (not_lt.mpr h), if_pos h]
    · rw [if_pos (lt_of_not_le h), if_neg h]
  refine ⟨hmain, ?_, ?_⟩
  · intro h49
    rw [hmain, h49]
    norm_num
  · intro h51
    rw [hmain, h51]
    norm_num

/-- C5 witness: a 49 km path pays no toll and a 51 km path pays 1.02. -/
theorem C5_estimateTollCost_threshold_witness :
    consecutiveDistanceSum taxiDist [wp 0 0, wp 0 49] = 49 ∧
    estimateTollCost taxiDist [wp 0 0, wp 0 49] = 0 ∧
    consecutiveDistanceSum taxiDist [wp 0 0, wp 0 51] = 51 ∧
    estimateTollCost taxiDist [wp 0 0, wp 0 51] = 102 / 100 :=
  ⟨by norm_num [consecutiveDistanceSum, taxiDist, wp],
   (C5_estimateTollCost_threshold taxiDist [wp 0 0, wp 0 49]).2.1
     (by norm_num [consecutiveDistanceSum, taxiDist, wp]),
   by norm_num [consecutiveDistanceSum, taxiDist, wp],
   (C5_estimateTollCost_threshold taxiDist [wp 0 0, wp 0 51]).2.2
     (by norm_num [consecutiveDistanceSum, taxiDist, wp])⟩

/-- C6: the tour planner returns a permutation of exactly the input stops —
the same multiset, with no duplicates added and no stops omitted. -/
theorem C6_solveTSP_perm (dist : RouteWaypoint → RouteWaypoint → ℚ)
    (origin : RouteWaypoint) (points : List RouteWaypoint) :
    List.Perm (solveTSP dist origin points) points :=
  solveTSP_perm_aux dist points.length points origin le_rfl

theorem solveTSP_nil (dist : RouteWaypoint → RouteWaypoint → ℚ)
    (current : RouteWaypoint) : solveTSP dist current [] = [] := by
  rw [solveTSP]

theorem nearestIdx_pair (dist : RouteWaypoint → RouteWaypoint → ℚ)
    (o a b : RouteWaypoint) :
    nearestIdx dist o [a, b] = if dist o b < dist o a then 1 else 0 := by
  by_cases h : dist o b < dist o a
  · simp [nearestIdx, nnIdxAux, h]
  · simp [nearestIdx, nnIdxAux, h]

theorem solveTSP_singleton (dist : RouteWaypoint → RouteWaypoint → ℚ)
    (current x : RouteWaypoint) : solveTSP dist current [x] = [x] := by
  rw [solveTSP_cons]
  simp [nearestIdx, nnIdxAux, solveTSP_nil]

/-- C7: at every step of the tour planner the stop appended next is one at
minimum distance from the current position among the remaining stops, ties
broken in favour of the first-encountered stop in input order, and the
current position then advances to it; for an input of exactly two stops the
nearer stop is visited first. -/
theorem C7_solveTSP_greedy_step (dist : RouteWaypoint → RouteWaypoint → ℚ)
    (current p : RouteWaypoint) (ps : List RouteWaypoint) (o a b : RouteWaypoint) :
    (nearestIdx dist current (p :: ps) < (p :: ps).length ∧
     (∀ j, j < (p :: ps).length →
       dist current ((p :: ps).getD (nearestIdx dist current (p :: ps)) p) ≤
         dist current ((p :: ps).getD j p)) ∧
     (∀ j, j < nearestIdx dist current (p :: ps) →
       dist current ((p :: ps).getD (nearestIdx dist current (p :: ps)) p) <
         dist current ((p :: ps).getD j p)) ∧
     solveTSP dist current (p :: ps) =
       (p :: ps).getD (nearestIdx dist current (p :: ps)) p ::
         solveTSP dist ((p :: ps).getD (nearestIdx dist current (p :: ps)) p)
           ((p :: ps).eraseIdx (nearestIdx dist current (p :: ps)))) ∧
    (dist o a ≤ dist o b → solveTSP dist o [a, b] = [a, b]) ∧
    (dist o b < dist o a → solveTSP dist o [a, b] = [b, a]) := by
  have hspec := nearestIdx_spec dist current p p ps
  refine ⟨⟨hspec.1, hspec.2.1, hspec.2.2, solveTSP_cons dist current p ps⟩, ?_, ?_⟩
  · intro hle
    have hidx : nearestIdx dist o [a, b] = 0 := by
      rw [nearestIdx_pair, if_neg (not_lt.mpr hle)]
    rw [solveTSP_cons, hidx]
    simp [solveTSP_singleton]
  · intro hlt
    have hidx : nearestIdx dist o [a, b] = 1 := by
      rw [nearestIdx_pair, if_pos hlt]
    rw [solveTSP_cons, hidx]
    simp [solveTSP_singleton]

/-- C7 witness: with taxicab distances from the origin (0,0), the planner
visits (0,1) before (0,2) regardless of input order. -/
theorem C7_solveTSP_greedy_step_witness :
    solveTSP taxiDist (wp 0 0) [wp 0 2, wp 0 1] = [wp 0 1, wp 0 2] ∧
    solveTSP taxiDist (wp 0 0) [wp 0 1, wp 0 2] = [wp 0 1, wp 0 2] :=
  ⟨(C7_solveTSP_greedy_step taxiDist (wp 0 0) (wp 0 2) [wp 0 1]
      (wp 0 0) (wp 0 2) (wp 0 1)).2.2 (by norm_num [taxiDist, wp]),
   (C7_solveTSP_greedy_step taxiDist (wp 0 0) (wp 0 1) [wp 0 2]
      (wp 0 0) (wp 0 1) (wp 0 2)).2.1 (by norm_num [taxiDist, wp])⟩

/-- C10: in the fallback (no-provider) configuration, the optimal-route
computation is a pure function of the request: its value does not depend on
the ambient random stream, so two calls with identical input return
identical OptimizedRoute values. -/
theorem C10_calculateOptimalRoute_deterministic
    (dist : RouteWaypoint → RouteWaypoint → ℚ)
    (request : RouteOptimizationRequest) (rng₁ rng₂ : ℕ → ℚ) :
    calculateOptimalRoute dist rng₁ request = calculateOptimalRoute dist rng₂ request :=
  rfl

/-- C1 counterexample: on a stored COMPLETED route, updateStatus with new
status PLANNED succeeds and the stored status changes — the claimed
InvalidTransition failure does not happen and the stored status is not
preserved. -/
theorem C1_counterexample :
    (updateRouteStatus (storeOf sampleRouteCompleted) "route-1" RouteStatus.PLANNED none).1 =
      Except.ok { sampleRouteCompleted with status := RouteStatus.PLANNED } ∧
    ((updateRouteStatus (storeOf sampleRouteCompleted) "route-1" RouteStatus.PLANNED none).2
        "route-1").map PersistedRoute.status = some RouteStatus.PLANNED := by
  exact ⟨rfl, rfl⟩

/-- C1 (amended): `updateRouteStatus` performs no state-machine validation
at all: for every stored route — whatever its current status, including the
terminal COMPLETED and CANCELLED — and every requested new status, the call
succeeds and the stored status becomes the requested one.  (In particular
PLANNED → CANCELLED succeeds, as claimed, but so does every transition out
of COMPLETED or CANCELLED; no InvalidTransition error exists in the code.) -/
theorem C1_updateRouteStatus_unvalidated (s : Store) (routeId : String)
    (newStatus : RouteStatus) (dur : Option ℚ) (r : PersistedRoute)
    (h : s routeId = some r) :
    ∃ r', (updateRouteStatus s routeId newStatus dur).1 = Except.ok r' ∧
      r'.status = newStatus ∧
      (updateRouteStatus s routeId newStatus dur).2 routeId = some r' := by
  refine ⟨{ r with
      status := newStatus,
      actualDuration :=
        (match dur with
          | some d => if d = 0 then r.actualDuration else some d
          | none => r.actualDuration) }, ?_, rfl, ?_⟩
  · simp only [updateRouteStatus, h]
  · simp only [updateRouteStatus, h, updateStore]
    simp

/-- C1 witness: the amended theorem applied to a concrete COMPLETED route
and the PLANNED target status. -/
theorem C1_updateRouteStatus_unvalidated_witness :
    ∃ r', (updateRouteStatus (storeOf sampleRouteCompleted) "route-1"
        RouteStatus.PLANNED none).1 = Except.ok r' ∧
      r'.status = RouteStatus.PLANNED ∧
      (updateRouteStatus (storeOf sampleRouteCompleted) "route-1"
        RouteStatus.PLANNED none).2 "route-1" = some r' :=
  C1_updateRouteStatus_unvalidated (storeOf sampleRouteCompleted) "route-1"
    RouteStatus.PLANNED none sampleRouteCompleted rfl

/-- C9 counterexample: updateStatus with a provided actualDuration of 0
leaves the stored actualDuration unchanged (none) instead of recording 0. -/
theorem C9_counterexample :
    ((updateRouteStatus (storeOf samplePlannedRoute) "route-2" RouteStatus.COMPLETED
        (some (0 : ℚ))).2 "route-2").map PersistedRoute.actualDuration = some none ∧
    ((updateRouteStatus (storeOf samplePlannedRoute) "route-2" RouteStatus.COMPLETED
        (some (0 : ℚ))).2 "route-2").map PersistedRoute.actualDuration ≠
      some (some 0) := by
  constructor
  · rfl
  · intro hcontra
    rw [show ((updateRouteStatus (storeOf samplePlannedRoute) "route-2"
        RouteStatus.COMPLETED (some (0 : ℚ))).2 "route-2").map
        PersistedRoute.actualDuration = some none from rfl] at hcontra
    simp at hcontra

/-- C9 (amended): for every stored route and provided actualDuration value,
updateStatus records the value when it is nonzero; a provided value of 0 is
dropped by the JavaScript truthiness guard `if (actualDuration)` and the
previously stored value is kept. -/
theorem C9_actualDuration_recording (s : Store) (routeId : String)
    (st : RouteStatus) (d : ℚ) (r : PersistedRoute) (h : s routeId = some r) :
    ∃ r', (updateRouteStatus s routeId st (some d)).1 = Except.ok r' ∧
      r'.actualDuration = (if d = 0 then r.actualDuration else some d) ∧
      (updateRouteStatus s routeId st (some d)).2 routeId = some r' := by
  refine ⟨{ r with
      status := st,
      actualDuration := if d = 0 then r.actualDuration else some d },
    ?_, rfl, ?_⟩
  · simp only [updateRouteStatus, h]
  · simp only [updateRouteStatus, h, updateStore]
    simp

/-- C9 witness: the amended theorem applied with a provided nonzero
duration. -/
theorem C9_actualDuration_recording_witness :
    ∃ r', (updateRouteStatus (storeOf samplePlannedRoute) "route-2"
        RouteStatus.IN_PROGRESS (some (5 : ℚ))).1 = Except.ok r' ∧
      r'.actualDuration =
        (if (5 : ℚ) = 0 then samplePlannedRoute.actualDuration else some 5) ∧
      (updateRouteStatus (storeOf samplePlannedRoute) "route-2"
        RouteStatus.IN_PROGRESS (some (5 : ℚ))).2 "route-2" = some r' :=
  C9_actualDuration_recording (storeOf samplePlannedRoute) "route-2"
    RouteStatus.IN_PROGRESS 5 samplePlannedRoute rfl

/-- C2 counterexample: on a path consisting of exactly one point the
tracking handler computes `0 / 0`, which is NaN (modelled none), not the
claimed 100. -/
theorem C2_counterexample :
    trackingProgress taxiDist (wp 0 0) [wp 0 0] = none ∧
    trackingProgress taxiDist (wp 0 0) [wp 0 0] ≠ some 100 := by
  refine ⟨rfl, ?_⟩
  intro hcontra
  rw [show trackingProgress taxiDist (wp 0 0) [wp 0 0] = none from rfl] at hcontra
  cases hcontra

/-- C2 (amended): for every tracked location and every stored path of at
least two points, the progress computation selects the lowest index of a
path point at minimum distance from the current location and returns
`round(index / (pathLength - 1) * 100)`, and the estimated remaining time
is `estimatedDuration * (1 - progressPercent / 100)`; for a path of exactly
one point the computation divides 0 by 0 and produces NaN (modelled none),
not 100. -/
theorem C2_trackingProgress_spec (dist : RouteWaypoint → RouteWaypoint → ℚ)
    (cur p q : RouteWaypoint) (ps : List RouteWaypoint) (D : ℚ) :
    (closestPointIndex dist cur (p :: q :: ps) < (p :: q :: ps).length ∧
     (∀ j, j < (p :: q :: ps).length →
       dist cur ((p :: q :: ps).getD (closestPointIndex dist cur (p :: q :: ps)) p) ≤
         dist cur ((p :: q :: ps).getD j p)) ∧
     (∀ j, j < closestPointIndex dist cur (p :: q :: ps) →
       dist cur ((p :: q :: ps).getD (closestPointIndex dist cur (p :: q :: ps)) p) <
         dist cur ((p :: q :: ps).getD j p))) ∧
    trackingProgress dist cur (p :: q :: ps) =
      some (round ((closestPointIndex dist cur (p :: q :: ps) : ℚ) /
        (((p :: q :: ps).length : ℚ) - 1) * 100)) ∧
    estimatedTimeRemaining D (trackingProgress dist cur (p :: q :: ps)) =
      some (D * (1 - ((round ((closestPointIndex dist cur (p :: q :: ps) : ℚ) /
        (((p :: q :: ps).length : ℚ) - 1) * 100) : ℤ) : ℚ) / 100)) ∧
    (∀ w : RouteWaypoint, trackingProgress dist cur [w] = none) := by
  have hspec := closestPointIndex_spec dist cur p p (q :: ps)
  have hprog : trackingProgress dist cur (p :: q :: ps) =
      some (round ((closestPointIndex dist cur (p :: q :: ps) : ℚ) /
        (((p :: q :: ps).length : ℚ) - 1) * 100)) := by
    simp [trackingProgress]
  refine ⟨⟨hspec.1, hspec.2.1, hspec.2.2⟩, hprog, ?_, ?_⟩
  · rw [hprog]
    rfl
  · intro w
    rfl

/-- C2 witness: the amended theorem applied to a concrete two-point path
and a concrete one-point path. -/
theorem C2_trackingProgress_spec_witness :
    trackingProgress taxiDist (wp 1 0) [wp 0 0, wp 0 2] =
      some (round ((closestPointIndex taxiDist (wp 1 0) [wp 0 0, wp 0 2] : ℚ) /
        ((([wp 0 0, wp 0 2] : List RouteWaypoint).length : ℚ) - 1) * 100)) ∧
    trackingProgress taxiDist (wp 1 0) [wp 0 0] = none :=
  ⟨(C2_trackingProgress_spec taxiDist (wp 1 0) (wp 0 0) (wp 0 2) [] 60).2.1,
   (C2_trackingProgress_spec taxiDist (wp 1 0) (wp 0 0) (wp 0 2) [] 60).2.2.2 (wp 0 0)⟩

theorem samplePlanned_remaining_empty :
    getRemainingWaypoints taxiDist samplePlannedRoute.optimizedPath (wp 0 1) = [] := by
  norm_num [getRemainingWaypoints, nearestIdx, nnIdxAux, taxiDist, wp,
    samplePlannedRoute]

theorem samplePlanned_recalcTry :
    recalculateRouteTry taxiDist (fun _ => 0) (storeOf samplePlannedRoute) "CAR"
      "route-2" (wp 0 1) = Except.error ⟨"Route already completed", 400⟩ := by
  have hstore : storeOf samplePlannedRoute "route-2" = some samplePlannedRoute := rfl
  simp only [recalculateRouteTry, getRouteById, hstore,
    samplePlanned_remaining_empty]

/-- C3 counterexample: with the current location closest to the final path
point, the recalculation call fails, but the caller receives the generic
"Failed to recalculate route" (500) error, not the distinct
"Route already completed" (400) condition — the catch-all swallows it. -/
theorem C3_counterexample :
    (recalculateRoute taxiDist (fun _ => 0) (storeOf samplePlannedRoute) "CAR"
        "route-2" (wp 0 1)).1 = Except.error ⟨"Failed to recalculate route", 500⟩ ∧
    (recalculateRoute taxiDist (fun _ => 0) (storeOf samplePlannedRoute) "CAR"
        "route-2" (wp 0 1)).1 ≠ Except.error ⟨"Route already completed", 400⟩ := by
  have h : (recalculateRoute taxiDist (fun _ => 0) (storeOf samplePlannedRoute)
      "CAR" "route-2" (wp 0 1)).1 =
        Except.error ⟨"Failed to recalculate route", 500⟩ := by
    simp only [recalculateRoute, samplePlanned_recalcTry]
  refine ⟨h, ?_⟩
  rw [h]
  intro hcontra
  simp at hcontra

/-- C3 (amended): when the current location's closest stored path point
(minimum distance, ties to lowest index) is the final one, recalculation
fails and the stored record is left unchanged; internally the distinct
"Route already completed" (400) condition is raised, but the method's
catch-all converts it, so the caller observes only the generic
"Failed to recalculate route" (500) error. -/
theorem C3_recalculateRoute_swallowed (dist : RouteWaypoint → RouteWaypoint → ℚ)
    (rng : ℕ → ℚ) (s : Store) (vehicleType routeId : String)
    (cur : RouteWaypoint) (r : PersistedRoute) (h : s routeId = some r)
    (hne : r.optimizedPath ≠ [])
    (hclosest : nearestIdx dist cur r.optimizedPath = r.optimizedPath.length - 1) :
    recalculateRouteTry dist rng s vehicleType routeId cur =
      Except.error ⟨"Route already completed", 400⟩ ∧
    recalculateRoute dist rng s vehicleType routeId cur =
      (Except.error ⟨"Failed to recalculate route", 500⟩, s) := by
  have hpos : 0 < r.optimizedPath.length := List.length_pos.mpr hne
  have hrem : getRemainingWaypoints dist r.optimizedPath cur = [] := by
    unfold getRemainingWaypoints
    rw [hclosest]
    apply List.drop_eq_nil_of_le
    omega
  have htry : recalculateRouteTry dist rng s vehicleType routeId cur =
      Except.error ⟨"Route already completed", 400⟩ := by
    simp only [recalculateRouteTry, getRouteById, h, hrem]
  exact ⟨htry, by simp only [recalculateRoute, htry]⟩

/-- C3 witness: the amended theorem applied to a concrete stored route whose
final path point coincides with the current location. -/
theorem C3_recalculateRoute_swallowed_witness :
    recalculateRouteTry taxiDist (fun _ => 0) (storeOf samplePlannedRoute) "CAR"
      "route-2" (wp 0 1) = Except.error ⟨"Route already completed", 400⟩ ∧
    recalculateRoute taxiDist (fun _ => 0) (storeOf samplePlannedRoute) "CAR"
      "route-2" (wp 0 1) =
        (Except.error ⟨"Failed to recalculate route", 500⟩,
          storeOf samplePlannedRoute) :=
  C3_recalculateRoute_swallowed taxiDist (fun _ => 0) (storeOf samplePlannedRoute)
    "CAR" "route-2" (wp 0 1) samplePlannedRoute rfl
    (by simp [samplePlannedRoute])
    (by norm_num [nearestIdx, nnIdxAux, taxiDist, wp, samplePlannedRoute])

/-- C8 counterexample: a Google Maps response with one leg of one step
starting at the origin parses to the path `[origin]`, whose last element is
not the request's destination — the origin-first/destination-last invariant
is not enforced for provider-parsed paths. -/
theorem C8_counterexample :
    (getGoogleMapsRoute sampleRequest sampleGoogleResponse).path = [wp 0 0] ∧
    (getGoogleMapsRoute sampleRequest sampleGoogleResponse).path.getLast? ≠
      some sampleRequest.destination := by
  have h : (getGoogleMapsRoute sampleRequest sampleGoogleResponse).path =
      [wp 0 0] := rfl
  refine ⟨h, ?_⟩
  rw [h]
  intro hcontra
  simp [wp, sampleRequest] at hcontra

/-- C8 (amended): the origin-first/destination-last invariant holds for the
fallback variant and for the engine's fallback-configuration route
computation; it is not enforced for provider-parsed paths (the Google Maps
parser concatenates only the step start locations, so the destination is
never appended, and the Mapbox parser returns whatever coordinates the
provider sent). -/
theorem C8_fallback_path_endpoints (dist : RouteWaypoint → RouteWaypoint → ℚ)
    (rng : ℕ → ℚ) (request : RouteOptimizationRequest) :
    (getBasicRoute dist request).path.head? = some request.origin ∧
    (getBasicRoute dist request).path.getLast? = some request.destination ∧
    (calculateOptimalRoute dist rng request).path.head? = some request.origin ∧
    (calculateOptimalRoute dist rng request).path.getLast? = some request.destination := by
  have hpath : (getBasicRoute dist request).path =
      (request.origin :: request.waypoints.getD []) ++ [request.destination] := by
    simp [getBasicRoute]
  have hlast : (getBasicRoute dist request).path.getLast? =
      some request.destination := by
    rw [hpath]
    exact List.getLast?_concat _
  have hcalc : (calculateOptimalRoute dist rng request).path =
      (getBasicRoute dist request).path := rfl
  exact ⟨by rw [hpath]; rfl, hlast, by rw [hcalc, hpath]; rfl,
    by rw [hcalc]; exact hlast⟩

end Ridelink
